import Mathlib

/-!
# Pixel Arena — ArenaCharacter verification

A shallow embedding of `PixelArena/Source/PixelArena/ArenaCharacter.cpp`:
the character state machine (Idle / Walking / Attacking / Ability), the
directional input map with press timestamps, the attack and ability input
handlers, and the damage calculation.

Modelling choices:
* `FDateTime` values are modelled as `Int` (an order-isomorphic embedding of
  the tick counter); the sentinel `InputReleaseTime` is `-1`, and the engine
  clock `FDateTime::Now()` always returns strictly positive values.
* Duration comparisons (`GetDuration().GetTotalMilliseconds() < AbilityCooldown`)
  are modelled over `Int` with `|·|` for `GetDuration`, which preserves the
  order of the original floating-point comparison.
* `float` quantities (speed, velocity, attack damage) are modelled as `ℚ`.
* Engine side effects (Blueprint hooks, flipbook playback, collision toggles,
  damage delivery) are modelled as an explicit effect trace emitted next to
  the state update.
-/

/-- The `Direction` enum, in its declaration (and `TMap` insertion) order. -/
inductive Direction
  | North
  | East
  | South
  | West
deriving DecidableEq, Repr

/-- The `CharacterState` enum of the behavioural state machine. -/
inductive CharacterState
  | Idle
  | Walking
  | Attacking
  | Ability
deriving DecidableEq, Repr

/-- Engine side effects invoked by the character logic. -/
inductive Effect
  | AbilityStart
  | AbilityEnd
  | IdleHook
  | WalkingHook
  | AttackHook (elapsed : Int) (keyDown : Bool)
  | AbilityHook (elapsed : Int) (keyDown : Bool)
  | PlayFlip (animation : Nat) (looping : Bool)
  | SetCollision (d : Direction) (enabled : Bool)
  | Damage (targetId : Nat) (amount : ℚ)
deriving DecidableEq, Repr

/-- `static FDateTime InputReleaseTime = -1`: the sentinel marking a released key. -/
def InputReleaseTime : Int := -1

/-- The fields of `AArenaCharacter` that the specified logic reads and writes,
plus its configuration properties (`MoveSpeed`, `AttackDamage`, `AbilityCooldown`,
the animation maps). -/
structure ArenaCharacter where
  MoveInputMap : Direction → Int
  bIsMoving : Bool
  bIsAttacking : Bool
  bIsAbility : Bool
  attackKeyDown : Bool
  abilityKeyDown : Bool
  attackStarted : Bool
  attackDownTime : Int
  abilityDownTime : Int
  abilityCooldownTime : Int
  MoveDirection : Direction
  Facing : Direction
  characterState : CharacterState
  Velocity : ℚ × ℚ × ℚ
  MoveSpeed : ℚ
  AttackDamage : ℚ
  AbilityCooldown : Int
  IdleAnimations : Direction → Option Nat
  WalkingAnimations : Direction → Option Nat

/-- The state set up by the `AArenaCharacter` constructor: every entry of
`MoveInputMap` holds `InputReleaseTime`, and all flags and timers have their
C++ zero-initialised / header defaults. -/
def initialCharacter : ArenaCharacter where
  MoveInputMap := fun _ => InputReleaseTime
  bIsMoving := false
  bIsAttacking := false
  bIsAbility := false
  attackKeyDown := false
  abilityKeyDown := false
  attackStarted := false
  attackDownTime := -1
  abilityDownTime := -1
  abilityCooldownTime := -1
  MoveDirection := Direction.North
  Facing := Direction.North
  characterState := CharacterState.Idle
  Velocity := (0, 0, 0)
  MoveSpeed := 0
  AttackDamage := 0
  AbilityCooldown := 0
  IdleAnimations := fun _ => none
  WalkingAnimations := fun _ => none

/-- `AArenaCharacter::UpdateMovementInput(Direction, bool)`: stores the press
time (or the release sentinel) for `direction`, then recomputes `bIsMoving`
from the four map entries. `now` models `FDateTime::Now()`. -/
def UpdateMovementInput (s : ArenaCharacter) (direction : Direction)
    (keyDown : Bool) (now : Int) : ArenaCharacter :=
  let m : Direction → Int := fun d =>
    if d = direction then (if keyDown then now else InputReleaseTime)
    else s.MoveInputMap d
  let moving : Bool :=
    m Direction.North > InputReleaseTime ∨ m Direction.West > InputReleaseTime ∨
      m Direction.South > InputReleaseTime ∨ m Direction.East > InputReleaseTime
  { s with MoveInputMap := m, bIsMoving := moving }

/-- The `TMap` iteration order of `MoveInputMap`: its insertion order in the
constructor. -/
def dirOrder : List Direction :=
  [Direction.North, Direction.East, Direction.South, Direction.West]

/-- `AArenaCharacter::UpdateFacing()`: scans `MoveInputMap` in iteration order
for the entry with the strictly greatest timestamp, starting from the
zero-initialised pair `(North, 0)`; if `bIsMoving`, writes the winner to both
`MoveDirection` and `Facing`. -/
def UpdateFacing (s : ArenaCharacter) : ArenaCharacter :=
  let recent : Direction × Int :=
    dirOrder.foldl
      (fun r d => if s.MoveInputMap d > r.2 then (d, s.MoveInputMap d) else r)
      (Direction.North, 0)
  if s.bIsMoving then { s with MoveDirection := recent.1, Facing := recent.1 }
  else s

/-- `AArenaCharacter::UpdateAttackInput(bool)`: records the key state; when not
already attacking and the key is active, starts the attack and records the
press time. -/
def UpdateAttackInput (s : ArenaCharacter) (active : Bool) (now : Int) :
    ArenaCharacter :=
  let s1 := { s with attackKeyDown := active }
  if ¬s1.bIsAttacking ∧ active then
    { s1 with bIsAttacking := true, attackDownTime := now }
  else s1

/-- `AArenaCharacter::UpdateAbilityInput(bool)`: records the key state; returns
early when the cooldown has not elapsed or the ability is already active;
otherwise, if active, invokes `AbilityStart()`, raises `bIsAbility` and stamps
both `abilityDownTime` and `abilityCooldownTime`. -/
def UpdateAbilityInput (s : ArenaCharacter) (active : Bool) (now : Int) :
    ArenaCharacter × List Effect :=
  let s1 := { s with abilityKeyDown := active }
  if |now - s1.abilityCooldownTime| < s1.AbilityCooldown ∨ s1.bIsAbility then
    (s1, [])
  else if active then
    ({ s1 with bIsAbility := true, abilityDownTime := now,
               abilityCooldownTime := now },
     [Effect.AbilityStart])
  else (s1, [])

/-- `AArenaCharacter::FinishAttack()`: clears the attacking flag, resets the
press-time to the sentinel, clears `attackStarted` and disables the facing
hitbox. -/
def FinishAttack (s : ArenaCharacter) : ArenaCharacter × List Effect :=
  ({ s with bIsAttacking := false, attackDownTime := -1, attackStarted := false },
   [Effect.SetCollision s.Facing false])

/-- `AArenaCharacter::FinishAbility()`: clears the ability flag and resets the
press-time to the sentinel. -/
def FinishAbility (s : ArenaCharacter) : ArenaCharacter :=
  { s with bIsAbility := false, abilityDownTime := -1 }

/-- `AArenaCharacter::BeginAttack(direction)`: enables the facing hitbox and
marks the attack as started. -/
def BeginAttack (s : ArenaCharacter) : ArenaCharacter × List Effect :=
  ({ s with attackStarted := true }, [Effect.SetCollision s.Facing true])

/-- `AArenaCharacter::ResetCooldown()`: resets the ability cooldown stamp. -/
def ResetCooldown (s : ArenaCharacter) : ArenaCharacter :=
  { s with abilityCooldownTime := -1 }

/-- `AArenaCharacter::SetVelocity(float, Direction)`: the switch assigning the
velocity vector for the given speed and direction (the `West` case falls
through to the empty `default`). -/
def SetVelocity (s : ArenaCharacter) (speed : ℚ) (direction : Direction) :
    ArenaCharacter :=
  match direction with
  | Direction.North => { s with Velocity := (0, 0, speed) }
  | Direction.East => { s with Velocity := (speed, 0, 0) }
  | Direction.South => { s with Velocity := (0, 0, -speed) }
  | Direction.West => { s with Velocity := (-speed, 0, 0) }

/-- `AArenaCharacter::Move()`: applies `MoveSpeed` in `MoveDirection`. -/
def Move (s : ArenaCharacter) : ArenaCharacter :=
  SetVelocity s s.MoveSpeed s.MoveDirection

/-- `AArenaCharacter::Attack(AArenaActor*, int)`: self-targets are a no-op;
otherwise the target receives `AttackDamage * 2 ^ damageModifier`
(`FGenericPlatformMath::Pow(2, damageModifier)`). Actors are identified by
`Nat` ids; the damage call is emitted as an effect and the character state is
returned unchanged. -/
def Attack (s : ArenaCharacter) (selfId otherId : Nat) (damageModifier : Int) :
    ArenaCharacter × List Effect :=
  if otherId = selfId then (s, [])
  else (s, [Effect.Damage otherId (s.AttackDamage * (2 : ℚ) ^ damageModifier)])

/-- The flipbook-playing effect emitted in the `Idle` / `Walking` branches of
`Tick` when the animation map contains an entry for the current facing. -/
def animEffect (animations : Direction → Option Nat) (facing : Direction) :
    List Effect :=
  match animations facing with
  | some fb => [Effect.PlayFlip fb true]
  | none => []

/-- `AArenaCharacter::Tick(float)`: the per-frame state machine switch on
`characterState`. `now` models `FDateTime::Now()` at this frame. Blueprint
hooks (`IdleState`, `WalkingState`, `AttackState`, `AbilityState`,
`AbilityEnd`) and flipbook playback are emitted as effects. -/
def Tick (s : ArenaCharacter) (now : Int) : ArenaCharacter × List Effect :=
  match s.characterState with
  | CharacterState.Idle =>
    let s1 := UpdateFacing s
    let fx := Effect.IdleHook :: animEffect s1.IdleAnimations s1.Facing
    if s1.bIsMoving then
      ({ s1 with characterState := CharacterState.Walking }, fx)
    else if s1.bIsAttacking then
      ({ s1 with characterState := CharacterState.Attacking }, fx)
    else if s1.bIsAbility then
      ({ s1 with characterState := CharacterState.Ability }, fx)
    else (s1, fx)
  | CharacterState.Walking =>
    let s1 := UpdateFacing s
    let fx := Effect.WalkingHook :: animEffect s1.WalkingAnimations s1.Facing
    if s1.bIsAttacking then
      ({ s1 with characterState := CharacterState.Attacking }, fx)
    else if s1.bIsAbility then
      ({ s1 with characterState := CharacterState.Ability }, fx)
    else if ¬s1.bIsMoving then
      ({ SetVelocity s1 0 s1.Facing with characterState := CharacterState.Idle },
       fx)
    else (s1, fx)
  | CharacterState.Attacking =>
    if ¬s.bIsAttacking ∧ s.bIsMoving then
      ({ s with characterState := CharacterState.Walking }, [])
    else if ¬s.bIsAttacking then
      ({ s with characterState := CharacterState.Idle }, [])
    else if ¬s.attackStarted then
      (s, [Effect.AttackHook (now - s.attackDownTime) s.attackKeyDown])
    else (s, [])
  | CharacterState.Ability =>
    if ¬s.bIsAbility ∧ s.bIsMoving then
      ({ s with characterState := CharacterState.Walking }, [Effect.AbilityEnd])
    else if ¬s.bIsAbility then
      ({ s with characterState := CharacterState.Idle }, [Effect.AbilityEnd])
    else
      (s, [Effect.AbilityHook (now - s.abilityDownTime) s.abilityKeyDown])

/-- The operations of `AArenaCharacter` that mutate character state, as a
single step alphabet (used to show which operations can touch the attack
fields). -/
inductive Op
  | MoveInput (direction : Direction) (keyDown : Bool)
  | FacingOp
  | AttackInput (active : Bool)
  | AbilityInput (active : Bool)
  | FinishAttackOp
  | FinishAbilityOp
  | BeginAttackOp
  | ResetCooldownOp
  | SetVelocityOp (speed : ℚ) (direction : Direction)
  | MoveOp
  | TickOp
deriving DecidableEq, Repr

/-- One operation applied to the character state (effects discarded). -/
def step (s : ArenaCharacter) (op : Op) (now : Int) : ArenaCharacter :=
  match op with
  | Op.MoveInput direction keyDown => UpdateMovementInput s direction keyDown now
  | Op.FacingOp => UpdateFacing s
  | Op.AttackInput active => UpdateAttackInput s active now
  | Op.AbilityInput active => (UpdateAbilityInput s active now).1
  | Op.FinishAttackOp => (FinishAttack s).1
  | Op.FinishAbilityOp => FinishAbility s
  | Op.BeginAttackOp => (BeginAttack s).1
  | Op.ResetCooldownOp => ResetCooldown s
  | Op.SetVelocityOp speed direction => SetVelocity s speed direction
  | Op.MoveOp => Move s
  | Op.TickOp => (Tick s now).1

/-- A direction counts as held when its `MoveInputMap` stamp is more recent
than the release sentinel. -/
def held (s : ArenaCharacter) (d : Direction) : Prop :=
  s.MoveInputMap d > InputReleaseTime

instance (s : ArenaCharacter) (d : Direction) : Decidable (held s d) := by
  unfold held; infer_instance

/-- Map stamps are either the release sentinel or a strictly positive clock
value: `FDateTime::Now()` (ticks since year 1) is always positive. -/
def wfMap (s : ArenaCharacter) : Prop :=
  ∀ d, s.MoveInputMap d = InputReleaseTime ∨ 0 < s.MoveInputMap d

/-- Position of a direction in the map's iteration order, for stating the
tie-break rule. -/
def dirIdx : Direction → Nat
  | Direction.North => 0
  | Direction.East => 1
  | Direction.South => 2
  | Direction.West => 3

/-- The invariant of claim C3: `bIsMoving` exactly reflects whether some
direction is held. -/
def movingInv (s : ArenaCharacter) : Prop :=
  s.bIsMoving = true ↔ ∃ d, held s d

/-- A whole sequence of `UpdateMovementInput` calls, each with its own clock
reading. -/
def applyMoveInputs (s : ArenaCharacter) :
    List (Direction × Bool × Int) → ArenaCharacter
  | [] => s
  | (d, k, t) :: rest => applyMoveInputs (UpdateMovementInput s d k t) rest

instance : Fintype Direction where
  elems := {Direction.North, Direction.East, Direction.South, Direction.West}
  complete := by intro d; cases d <;> simp

/-- The facing direction demanded by the spec: held, carrying the greatest
timestamp, and first in iteration order among equal timestamps. -/
def mostRecentHeld (s : ArenaCharacter) (f : Direction) : Prop :=
  held s f ∧ (∀ d, s.MoveInputMap d ≤ s.MoveInputMap f) ∧
    ∀ d, s.MoveInputMap d = s.MoveInputMap f → dirIdx f ≤ dirIdx d

instance (s : ArenaCharacter) (f : Direction) : Decidable (mostRecentHeld s f) := by
  unfold mostRecentHeld; infer_instance

instance (s : ArenaCharacter) : Decidable (wfMap s) := by
  unfold wfMap; infer_instance

/- ### Helper lemmas -/

lemma forall_dir (p : Direction → Prop) :
    (∀ d, p d) ↔
      p Direction.North ∧ p Direction.East ∧ p Direction.South ∧ p Direction.West := by
  constructor
  · intro h; exact ⟨h _, h _, h _, h _⟩
  · rintro ⟨h1, h2, h3, h4⟩ d; cases d <;> assumption

lemma exists_dir (p : Direction → Prop) :
    (∃ d, p d) ↔
      p Direction.North ∨ p Direction.East ∨ p Direction.South ∨ p Direction.West := by
  constructor
  · rintro ⟨d, h⟩; cases d <;> tauto
  · rintro (h | h | h | h) <;> exact ⟨_, h⟩

lemma updateFacing_not_moving (s : ArenaCharacter) (h : s.bIsMoving = false) :
    UpdateFacing s = s := by
  simp [UpdateFacing, h]

lemma updateFacing_bIsMoving (s : ArenaCharacter) :
    (UpdateFacing s).bIsMoving = s.bIsMoving := by
  unfold UpdateFacing; split <;> rfl

lemma updateFacing_bIsAttacking (s : ArenaCharacter) :
    (UpdateFacing s).bIsAttacking = s.bIsAttacking := by
  unfold UpdateFacing; split <;> rfl

lemma updateFacing_bIsAbility (s : ArenaCharacter) :
    (UpdateFacing s).bIsAbility = s.bIsAbility := by
  unfold UpdateFacing; split <;> rfl

lemma updateFacing_attackDownTime (s : ArenaCharacter) :
    (UpdateFacing s).attackDownTime = s.attackDownTime := by
  unfold UpdateFacing; split <;> rfl

lemma updateFacing_characterState (s : ArenaCharacter) :
    (UpdateFacing s).characterState = s.characterState := by
  unfold UpdateFacing; split <;> rfl

lemma setVelocity_bIsAttacking (s : ArenaCharacter) (speed : ℚ) (d : Direction) :
    (SetVelocity s speed d).bIsAttacking = s.bIsAttacking := by
  cases d <;> rfl

lemma setVelocity_attackDownTime (s : ArenaCharacter) (speed : ℚ) (d : Direction) :
    (SetVelocity s speed d).attackDownTime = s.attackDownTime := by
  cases d <;> rfl

lemma tick_preserves_attackFields (s : ArenaCharacter) (now : Int) :
    (Tick s now).1.bIsAttacking = s.bIsAttacking ∧
      (Tick s now).1.attackDownTime = s.attackDownTime := by
  unfold Tick
  cases hst : s.characterState <;>
    simp only [] <;>
    split_ifs <;>
    simp [updateFacing_bIsAttacking, updateFacing_attackDownTime,
      setVelocity_bIsAttacking, setVelocity_attackDownTime]

lemma updateMovementInput_movingInv (s : ArenaCharacter) (d : Direction)
    (k : Bool) (t : Int) : movingInv (UpdateMovementInput s d k t) := by
  simp only [movingInv, UpdateMovementInput, held, exists_dir, decide_eq_true_eq]
  tauto

lemma applyMoveInputs_movingInv (inputs : List (Direction × Bool × Int)) :
    ∀ s : ArenaCharacter, movingInv s → movingInv (applyMoveInputs s inputs) := by
  induction inputs with
  | nil => intro s h; exact h
  | cons p rest ih =>
    intro s _
    exact ih _ (updateMovementInput_movingInv s p.1 p.2.1 p.2.2)

lemma initialCharacter_movingInv : movingInv initialCharacter := by
  simp [movingInv, initialCharacter, held, InputReleaseTime, exists_dir]

/- ### Claims -/

/-- C3: after every sequence of `UpdateMovementInput` calls starting from the
constructed character, `bIsMoving` is true iff at least one `MoveInputMap`
entry is more recent than the release sentinel. -/
theorem moving_iff_some_direction_held (inputs : List (Direction × Bool × Int)) :
    movingInv (applyMoveInputs initialCharacter inputs) :=
  applyMoveInputs_movingInv inputs initialCharacter initialCharacter_movingInv

/-- C8: when `bIsMoving` is false, `UpdateFacing` leaves the whole state —
in particular `Facing` and `MoveDirection` — unchanged. -/
theorem updateFacing_idle_keeps_facing (s : ArenaCharacter)
    (h : s.bIsMoving = false) :
    (UpdateFacing s).Facing = s.Facing ∧
      (UpdateFacing s).MoveDirection = s.MoveDirection := by
  rw [updateFacing_not_moving s h]
  exact ⟨rfl, rfl⟩

/-- C8 witness: the freshly constructed character is not moving and keeps its
facing through `UpdateFacing`. -/
theorem updateFacing_idle_keeps_facing_witness :
    initialCharacter.bIsMoving = false ∧
      (UpdateFacing initialCharacter).Facing = initialCharacter.Facing ∧
        (UpdateFacing initialCharacter).MoveDirection =
          initialCharacter.MoveDirection :=
  ⟨rfl, updateFacing_idle_keeps_facing initialCharacter rfl⟩

/-- C9: attacking oneself is a no-op for every damage modifier: the state is
unchanged and no damage effect is emitted. -/
theorem attack_self_noop (s : ArenaCharacter) (selfId : Nat)
    (damageModifier : Int) : Attack s selfId selfId damageModifier = (s, []) := by
  simp [Attack]

/-- C4: attacking a distinct target applies exactly
`AttackDamage * 2 ^ damageModifier` to it, leaving the attacker unchanged. -/
theorem attack_applies_scaled_damage (s : ArenaCharacter) (selfId otherId : Nat)
    (damageModifier : Int) (h : otherId ≠ selfId) :
    Attack s selfId otherId damageModifier =
      (s, [Effect.Damage otherId (s.AttackDamage * (2 : ℚ) ^ damageModifier)]) := by
  simp [Attack, h]

/-- A character configured with base attack damage 10. -/
def strongCharacter : ArenaCharacter := { initialCharacter with AttackDamage := 10 }

/-- C4 witness: base damage 10 with modifier 2 deals 40 to target 1. -/
theorem attack_applies_scaled_damage_witness :
    (1 : Nat) ≠ 0 ∧
      Attack strongCharacter 0 1 2 = (strongCharacter, [Effect.Damage 1 40]) := by
  refine ⟨by decide, ?_⟩
  have h := attack_applies_scaled_damage strongCharacter 0 1 2 (by decide)
  rw [h]
  norm_num [strongCharacter]

/-- C6: a tick in the `Walking` state with no attack, no ability and no
movement zeroes the velocity and transitions to `Idle`. -/
theorem walking_tick_stops_to_idle (s : ArenaCharacter) (now : Int)
    (hst : s.characterState = CharacterState.Walking)
    (hatk : s.bIsAttacking = false) (hab : s.bIsAbility = false)
    (hmov : s.bIsMoving = false) :
    (Tick s now).1.Velocity = (0, 0, 0) ∧
      (Tick s now).1.characterState = CharacterState.Idle := by
  unfold Tick
  rw [hst]
  simp only [updateFacing_not_moving s hmov, hatk, hab, hmov]
  cases s.Facing <;> norm_num [SetVelocity]

/-- A character that is mid-walk with a nonzero velocity. -/
def walkingCharacter : ArenaCharacter :=
  { initialCharacter with
      characterState := CharacterState.Walking, Velocity := (3, 0, 0) }

/-- C6 witness: ticking the walking character with everything released stops
it at `Idle` with zero velocity. -/
theorem walking_tick_stops_to_idle_witness :
    walkingCharacter.characterState = CharacterState.Walking ∧
      walkingCharacter.bIsAttacking = false ∧
      walkingCharacter.bIsAbility = false ∧
      walkingCharacter.bIsMoving = false ∧
      (Tick walkingCharacter 9).1.Velocity = (0, 0, 0) ∧
      (Tick walkingCharacter 9).1.characterState = CharacterState.Idle :=
  ⟨rfl, rfl, rfl, rfl,
    (walking_tick_stops_to_idle walkingCharacter 9 rfl rfl rfl rfl).1,
    (walking_tick_stops_to_idle walkingCharacter 9 rfl rfl rfl rfl).2⟩

/-- A character in the middle of an attack (flag raised, press time 5) whose
attack key has been released. -/
def midAttackCharacter : ArenaCharacter :=
  { initialCharacter with bIsAttacking := true, attackDownTime := 5 }

/-- C7 counterexample: a rising edge of the attack input (key was up, now
pressed at time 7) while an attack is still in progress does not record the
current time as the press time — the gate is `bIsAttacking`, not the key
state, so the claimed update to `attack-press-time` does not happen. -/
theorem updateAttackInput_rising_edge_counterexample :
    midAttackCharacter.attackKeyDown = false ∧
      (UpdateAttackInput midAttackCharacter true 7).attackKeyDown = true ∧
      (UpdateAttackInput midAttackCharacter true 7).attackDownTime = 5 ∧
      (5 : Int) ≠ 7 := by
  refine ⟨rfl, ?_, ?_, by decide⟩ <;>
    simp [UpdateAttackInput, midAttackCharacter, initialCharacter]

/-- C7 amended: `UpdateAttackInput` always records the key state; whenever
`bIsAttacking` is false and the input is active it raises `bIsAttacking` and
stamps `attackDownTime` with the current time; in every other case it changes
neither `bIsAttacking` nor `attackDownTime`. -/
theorem updateAttackInput_spec (s : ArenaCharacter) (active : Bool) (now : Int) :
    (UpdateAttackInput s active now).attackKeyDown = active ∧
      (s.bIsAttacking = false ∧ active = true →
        (UpdateAttackInput s active now).bIsAttacking = true ∧
          (UpdateAttackInput s active now).attackDownTime = now) ∧
      (¬(s.bIsAttacking = false ∧ active = true) →
        (UpdateAttackInput s active now).bIsAttacking = s.bIsAttacking ∧
          (UpdateAttackInput s active now).attackDownTime = s.attackDownTime) := by
  unfold UpdateAttackInput
  refine ⟨?_, ?_, ?_⟩
  · simp only []
    split_ifs <;> rfl
  · rintro ⟨h1, h2⟩
    subst h2
    simp [h1]
  · intro h
    rcases hb : s.bIsAttacking <;> rcases ha : active <;>
      simp_all

/-- C7 amended witness: pressing attack on the fresh character raises the
flag and stamps time 4; pressing it again mid-attack changes nothing. -/
theorem updateAttackInput_spec_witness :
    ((UpdateAttackInput initialCharacter true 4).attackKeyDown = true ∧
        (UpdateAttackInput initialCharacter true 4).bIsAttacking = true ∧
        (UpdateAttackInput initialCharacter true 4).attackDownTime = 4) ∧
      ((UpdateAttackInput midAttackCharacter true 7).bIsAttacking = true ∧
        (UpdateAttackInput midAttackCharacter true 7).attackDownTime = 5) := by
  have h1 := updateAttackInput_spec initialCharacter true 4
  have h2 := updateAttackInput_spec midAttackCharacter true 7
  have ha := h1.2.1 (And.intro rfl rfl)
  have hb := h2.2.2 (fun h => absurd h.1 (by decide))
  exact ⟨⟨h1.1, ha.1, ha.2⟩, hb.1.trans rfl, hb.2.trans rfl⟩

/-- C10: no operation other than `FinishAttack` ends an attack in progress or
touches its press time — in particular releasing the attack key — while
`FinishAttack` itself resets `bIsAttacking`, `attackDownTime` and
`attackStarted`. -/
theorem finishAttack_alone_resets (s : ArenaCharacter) (op : Op) (now : Int) :
    (op ≠ Op.FinishAttackOp → s.bIsAttacking = true →
        (step s op now).bIsAttacking = true ∧
          (step s op now).attackDownTime = s.attackDownTime) ∧
      ((FinishAttack s).1.bIsAttacking = false ∧
        (FinishAttack s).1.attackDownTime = -1 ∧
        (FinishAttack s).1.attackStarted = false) := by
  refine ⟨?_, rfl, rfl, rfl⟩
  intro hop hatk
  cases op with
  | MoveInput direction keyDown => exact ⟨hatk, rfl⟩
  | FacingOp =>
    rw [step, updateFacing_bIsAttacking, updateFacing_attackDownTime]
    exact ⟨hatk, rfl⟩
  | AttackInput active =>
    simp [step, UpdateAttackInput, hatk]
  | AbilityInput active =>
    simp only [step, UpdateAbilityInput]
    split_ifs <;> simp [hatk]
  | FinishAttackOp => exact absurd rfl hop
  | FinishAbilityOp => exact ⟨hatk, rfl⟩
  | BeginAttackOp => exact ⟨hatk, rfl⟩
  | ResetCooldownOp => exact ⟨hatk, rfl⟩
  | SetVelocityOp speed direction =>
    rw [step, setVelocity_bIsAttacking, setVelocity_attackDownTime]
    exact ⟨hatk, rfl⟩
  | MoveOp =>
    rw [step, Move, setVelocity_bIsAttacking, setVelocity_attackDownTime]
    exact ⟨hatk, rfl⟩
  | TickOp =>
    have h := tick_preserves_attackFields s now
    rw [step, h.1, h.2]
    exact ⟨hatk, rfl⟩

/-- C10 witness: releasing the attack key mid-attack keeps the attack running
with its press time, and `FinishAttack` clears all three fields. -/
theorem finishAttack_alone_resets_witness :
    Op.AttackInput false ≠ Op.FinishAttackOp ∧
      midAttackCharacter.bIsAttacking = true ∧
      ((step midAttackCharacter (Op.AttackInput false) 9).bIsAttacking = true ∧
        (step midAttackCharacter (Op.AttackInput false) 9).attackDownTime = 5) ∧
      ((FinishAttack midAttackCharacter).1.bIsAttacking = false ∧
        (FinishAttack midAttackCharacter).1.attackDownTime = -1 ∧
        (FinishAttack midAttackCharacter).1.attackStarted = false) := by
  have h := finishAttack_alone_resets midAttackCharacter (Op.AttackInput false) 9
  have h1 := h.1 (by decide) rfl
  exact ⟨by decide, rfl, ⟨h1.1, h1.2.trans rfl⟩, h.2⟩

/-- C1: an ability request (`UpdateAbilityInput` with `active = true`) while
the cooldown has not elapsed or the ability is already active is dropped —
`AbilityStart` is not invoked, `bIsAbility` is not raised, and none of
`attackDownTime`, `abilityDownTime`, `abilityCooldownTime` changes; otherwise
`AbilityStart` fires, `bIsAbility` becomes true, and the current time is
stamped into both `abilityDownTime` and `abilityCooldownTime`. -/
theorem updateAbilityInput_cooldown_gate (s : ArenaCharacter) (now : Int) :
    ((|now - s.abilityCooldownTime| < s.AbilityCooldown ∨ s.bIsAbility = true) →
        (UpdateAbilityInput s true now).1.bIsAbility = s.bIsAbility ∧
          (UpdateAbilityInput s true now).1.attackDownTime = s.attackDownTime ∧
          (UpdateAbilityInput s true now).1.abilityDownTime = s.abilityDownTime ∧
          (UpdateAbilityInput s true now).1.abilityCooldownTime =
            s.abilityCooldownTime ∧
          (UpdateAbilityInput s true now).2 = []) ∧
      (¬(|now - s.abilityCooldownTime| < s.AbilityCooldown ∨ s.bIsAbility = true) →
        (UpdateAbilityInput s true now).1.bIsAbility = true ∧
          (UpdateAbilityInput s true now).1.abilityDownTime = now ∧
          (UpdateAbilityInput s true now).1.abilityCooldownTime = now ∧
          (UpdateAbilityInput s true now).2 = [Effect.AbilityStart]) := by
  constructor
  · intro h
    simp only [UpdateAbilityInput]
    rw [if_pos h]
    exact ⟨rfl, rfl, rfl, rfl, rfl⟩
  · intro h
    simp only [UpdateAbilityInput]
    rw [if_neg h]
    simp

/-- A character whose ability was last used at time 100 with a 1000 ms
cooldown. -/
def cooledCharacter : ArenaCharacter :=
  { initialCharacter with AbilityCooldown := 1000, abilityCooldownTime := 100 }

/-- C1 witness: at time 200 the request on `cooledCharacter` is dropped
without touching any timer; on the fresh character (cooldown stamp `-1`) a
request at time 5 starts the ability and stamps both timers. -/
theorem updateAbilityInput_cooldown_gate_witness :
    ((|(200 : Int) - cooledCharacter.abilityCooldownTime| <
          cooledCharacter.AbilityCooldown ∨ cooledCharacter.bIsAbility = true) ∧
        (UpdateAbilityInput cooledCharacter true 200).1.bIsAbility = false ∧
        (UpdateAbilityInput cooledCharacter true 200).1.abilityDownTime = -1 ∧
        (UpdateAbilityInput cooledCharacter true 200).1.abilityCooldownTime = 100 ∧
        (UpdateAbilityInput cooledCharacter true 200).2 = []) ∧
      ((UpdateAbilityInput initialCharacter true 5).1.bIsAbility = true ∧
        (UpdateAbilityInput initialCharacter true 5).1.abilityDownTime = 5 ∧
        (UpdateAbilityInput initialCharacter true 5).1.abilityCooldownTime = 5 ∧
        (UpdateAbilityInput initialCharacter true 5).2 =
          [Effect.AbilityStart]) := by
  have hcond : |(200 : Int) - cooledCharacter.abilityCooldownTime| <
      cooledCharacter.AbilityCooldown ∨ cooledCharacter.bIsAbility = true := by
    left; decide
  have h1 := (updateAbilityInput_cooldown_gate cooledCharacter 200).1 hcond
  have h2 := (updateAbilityInput_cooldown_gate initialCharacter 5).2 (by decide)
  exact ⟨⟨hcond, h1.1.trans rfl, h1.2.2.1.trans rfl, h1.2.2.2.1.trans rfl,
    h1.2.2.2.2⟩, h2⟩

/-- C5: a tick changes `characterState` at most once, and the `Idle` and
`Walking` transition checks are evaluated in the listed order with the first
match deciding: from `Idle` — Walking if moving, else Attacking if attacking,
else Ability if ability; from `Walking` — Attacking if attacking, else
Ability if ability, else Idle if not moving. -/
theorem tick_transition_priority (s : ArenaCharacter) (now : Int) :
    (s.characterState = CharacterState.Idle →
        (Tick s now).1.characterState =
          (if s.bIsMoving = true then CharacterState.Walking
           else if s.bIsAttacking = true then CharacterState.Attacking
           else if s.bIsAbility = true then CharacterState.Ability
           else CharacterState.Idle)) ∧
      (s.characterState = CharacterState.Walking →
        (Tick s now).1.characterState =
          (if s.bIsAttacking = true then CharacterState.Attacking
           else if s.bIsAbility = true then CharacterState.Ability
           else if s.bIsMoving = false then CharacterState.Idle
           else CharacterState.Walking)) ∧
      (s.characterState = CharacterState.Attacking →
        (Tick s now).1.characterState =
          (if s.bIsAttacking = false ∧ s.bIsMoving = true then
            CharacterState.Walking
           else if s.bIsAttacking = false then CharacterState.Idle
           else CharacterState.Attacking)) ∧
      (s.characterState = CharacterState.Ability →
        (Tick s now).1.characterState =
          (if s.bIsAbility = false ∧ s.bIsMoving = true then
            CharacterState.Walking
           else if s.bIsAbility = false then CharacterState.Idle
           else CharacterState.Ability)) := by
  refine ⟨?_, ?_, ?_, ?_⟩
  · intro hst
    unfold Tick
    rw [hst]
    simp only [updateFacing_bIsMoving, updateFacing_bIsAttacking,
      updateFacing_bIsAbility]
    rcases hm : s.bIsMoving <;> rcases ha : s.bIsAttacking <;>
      rcases hb : s.bIsAbility <;>
      simp [hm, ha, hb, updateFacing_characterState, hst]
  · intro hst
    unfold Tick
    rw [hst]
    simp only [updateFacing_bIsMoving, updateFacing_bIsAttacking,
      updateFacing_bIsAbility]
    rcases hm : s.bIsMoving <;> rcases ha : s.bIsAttacking <;>
      rcases hb : s.bIsAbility <;>
      cases hf : (UpdateFacing s).Facing <;>
      simp [hm, ha, hb, SetVelocity, hf, updateFacing_characterState, hst]
  · intro hst
    unfold Tick
    rw [hst]
    rcases hm : s.bIsMoving <;> rcases ha : s.bIsAttacking <;>
      rcases hb : s.attackStarted <;> simp [hm, ha, hb, hst]
  · intro hst
    unfold Tick
    rw [hst]
    rcases hm : s.bIsMoving <;> rcases hb : s.bIsAbility <;>
      simp [hm, hb, hst]

/-- C2: while moving, `UpdateFacing` writes to both `Facing` and
`MoveDirection` the held direction carrying the most recent timestamp, with
ties between equal timestamps resolved by the iteration order North, East,
South, West (first wins). -/
theorem updateFacing_most_recent (s : ArenaCharacter) (hwf : wfMap s)
    (hmov : s.bIsMoving = true) (hheld : ∃ d, held s d) :
    mostRecentHeld s (UpdateFacing s).Facing ∧
      (UpdateFacing s).MoveDirection = (UpdateFacing s).Facing := by
  have hN := hwf Direction.North
  have hE := hwf Direction.East
  have hS := hwf Direction.South
  have hW := hwf Direction.West
  rw [exists_dir] at hheld
  simp only [held, InputReleaseTime] at hheld hN hE hS hW
  unfold UpdateFacing dirOrder
  simp only [List.foldl_cons, List.foldl_nil, hmov, if_true, mostRecentHeld,
    forall_dir, held, InputReleaseTime]
  split_ifs <;> simp_all [dirIdx] <;> omega

/-- A character holding East and South (both pressed at time 7, South later
than West's press at 3), with North released. -/
def movingCharacter : ArenaCharacter :=
  { initialCharacter with
      MoveInputMap := fun d =>
        match d with
        | Direction.North => -1
        | Direction.East => 7
        | Direction.South => 7
        | Direction.West => 3,
      bIsMoving := true }

/-- C2 witness: with East and South tied at the most recent press, the facing
resolves to East, the first of the two in iteration order. -/
theorem updateFacing_most_recent_witness :
    wfMap movingCharacter ∧ movingCharacter.bIsMoving = true ∧
      held movingCharacter Direction.East ∧
      mostRecentHeld movingCharacter (UpdateFacing movingCharacter).Facing ∧
      (UpdateFacing movingCharacter).MoveDirection =
        (UpdateFacing movingCharacter).Facing := by
  have h := updateFacing_most_recent movingCharacter (by decide) rfl
    ⟨Direction.East, by decide⟩
  exact ⟨by decide, rfl, by decide, h.1, h.2⟩

/-- An idle character that has begun moving. -/
def movingIdleCharacter : ArenaCharacter :=
  { initialCharacter with bIsMoving := true }

/-- C5 witness: an idle character that is moving transitions to `Walking` on
the next tick. -/
theorem tick_transition_priority_witness :
    movingIdleCharacter.characterState = CharacterState.Idle ∧
      (Tick movingIdleCharacter 3).1.characterState = CharacterState.Walking := by
  have h := (tick_transition_priority movingIdleCharacter 3).1 rfl
  exact ⟨rfl, h.trans (by decide)⟩
